import Mathlib

/-!
Verification of the bar-plot geometry and spatial-query engine of the
seedalpha/plottable repository.

The development shallowly embeds the relevant TypeScript sources:

* `src/components/plots/barPlot.ts` (`Plots.Bar`): attribute projection
  (`_generateAttrToProjector`), draw-step scheduling (`_generateDrawSteps`),
  the bar-width solve (`_getBarPixelWidth`), the drawable-data filter
  (`_getDataToDraw`), spatial queries (`entityNearest`, `entitiesAt`,
  `entitiesIn` / `_entitiesIntersecting`), the visibility predicate
  (`_isVisibleOnPlot`) and entity positions (`entities`, `_pixelPoint`);
* `src/components/plots/barPlot.ts` (`Plot.StackedArea`): the stack-offset
  warning pass (`_updateStackOffsets`);
* `src/renderers/barRenderer.ts` (`BarRenderer`): the baseline-relative
  `y`/`height` projectors of `_paint` and the `barAlignment` setter;
* `src/components/dragBoxLayer.ts` (`DragBoxLayer`): the `detectionRadius`
  setter.

Pixel coordinates are modelled as rational numbers.  JavaScript values that
may be `NaN`/`Infinity` are modelled by `JSValue` where the distinction
matters (the drawable-data filter).  Helpers of the repository that are not
part of the given sources (`Utils.Methods.min`/`max`/`intersectsBBox`,
`AbstractStacked._updateStackOffsets`, `_getDomainKeys`) are modelled from
the specification and marked as such in their doc comments.
-/

/-- A pixel point, as in Plottable's `Point` (`{x, y}`). -/
structure Point where
  x : ℚ
  y : ℚ
deriving DecidableEq

/-- A pixel range, as in Plottable's `Range` (`{min, max}`). -/
structure PixelRange where
  min : ℚ
  max : ℚ
deriving DecidableEq

/-- An SVG bounding box, as returned by `getBBox()` (`{x, y, width, height}`). -/
structure BBox where
  x : ℚ
  y : ℚ
  width : ℚ
  height : ℚ
deriving DecidableEq

/-- A `Bounds` value (`{topLeft, bottomRight}`). -/
structure Bounds where
  topLeft : Point
  bottomRight : Point
deriving DecidableEq

/-- A query-time entity: datum, reported pixel position, and the bounding box
of its rendered selection (`Plots.Entity`, restricted to the fields the
spatial queries read). -/
structure Entity (D : Type) where
  datum : D
  position : Point
  bbox : BBox
deriving DecidableEq

/-- The four geometric attribute projectors of a bar plot, i.e. the
`attrToProjector` entries `"x"`, `"y"`, `"width"`, `"height"` produced by
`Bar._generateAttrToProjector`. -/
structure AttrToProjector (D : Type) where
  x : D → ℚ
  y : D → ℚ
  width : D → ℚ
  height : D → ℚ

/-- Embedding of `Bar._generateAttrToProjector` (barPlot.ts lines 418-449).
`positionF` is the scaled secondary accessor, `widthF` the inherited width
projector, `originalPositionFn` the scaled primary accessor; `scaledBaseline`
is `primaryScale.scale(baselineValue)`. -/
def generateAttrToProjector {D : Type} (isVertical : Bool) (scaledBaseline : ℚ)
    (positionF widthF originalPositionFn : D → ℚ) : AttrToProjector D :=
  let heightF : D → ℚ := fun d => |scaledBaseline - originalPositionFn d|
  let primaryF : D → ℚ := fun d =>
    if originalPositionFn d > scaledBaseline then scaledBaseline else originalPositionFn d
  let secondaryF : D → ℚ := fun d => positionF d - widthF d / 2
  { x := if isVertical then secondaryF else primaryF
    y := if isVertical then primaryF else secondaryF
    width := if isVertical then widthF else heightF
    height := if isVertical then heightF else widthF }

/-- Embedding of the `y` projector installed by `BarRenderer._paint`
(barRenderer.ts lines 67-70): clamp the original scaled y to the baseline. -/
def barRendererYProjector {D : Type} (scaledBaseline : ℚ) (yFunction : D → ℚ) (d : D) : ℚ :=
  if yFunction d > scaledBaseline then scaledBaseline else yFunction d

/-- Embedding of the `height` projector installed by `BarRenderer._paint`
(barRenderer.ts lines 72-75). -/
def barRendererHeightProjector {D : Type} (scaledBaseline : ℚ) (yFunction : D → ℚ) (d : D) : ℚ :=
  |scaledBaseline - yFunction d|

/-- The animator keys used by `Bar._generateDrawSteps`
(`Plots.Animator.RESET` and `Plots.Animator.MAIN`). -/
inductive AnimatorKey where
  | reset
  | main
deriving DecidableEq

/-- A draw step (`Drawers.DrawStep`): an attribute projection plus the
animator it is handed to. -/
structure DrawStep (D : Type) where
  attrToProjector : AttrToProjector D
  animator : AnimatorKey

/-- Embedding of `Bar._generateDrawSteps` (barPlot.ts lines 402-416). -/
def generateDrawSteps {D : Type} (dataChanged animate : Bool) (isVertical : Bool)
    (scaledBaseline : ℚ) (positionF widthF originalPositionFn : D → ℚ) : List (DrawStep D) :=
  let resetSteps : List (DrawStep D) :=
    if dataChanged && animate then
      let resetAttrToProjector := generateAttrToProjector isVertical scaledBaseline
        positionF widthF originalPositionFn
      let resetAttrToProjector :=
        if isVertical then
          { resetAttrToProjector with y := fun _ => scaledBaseline, height := fun _ => 0 }
        else
          { resetAttrToProjector with x := fun _ => scaledBaseline, width := fun _ => 0 }
      [{ attrToProjector := resetAttrToProjector, animator := AnimatorKey.reset }]
    else []
  resetSteps ++
    [{ attrToProjector := generateAttrToProjector isVertical scaledBaseline
         positionF widthF originalPositionFn,
       animator := AnimatorKey.main }]

/-- Modelled from the spec: `Utils.Methods.intersectsBBox` — an inclusive
bounding-box overlap test with an explicit pixel tolerance ("A fixed
half-pixel tolerance is applied to all inside tests"). -/
def intersectsBBox (xRange yRange : PixelRange) (bbox : BBox) (tolerance : ℚ) : Bool :=
  decide (xRange.min - tolerance ≤ bbox.x + bbox.width) &&
  decide (bbox.x ≤ xRange.max + tolerance) &&
  decide (yRange.min - tolerance ≤ bbox.y + bbox.height) &&
  decide (bbox.y ≤ yRange.max + tolerance)

/-- Modelled from the spec: the tolerance `intersectsBBox` uses when a call
site does not pass one explicitly (the fixed half-pixel tolerance). -/
def defaultBBoxTolerance : ℚ := 1/2

/-- A point argument to `intersectsBBox` is parsed as the degenerate range
`{min: v, max: v}`. -/
def pointRange (v : ℚ) : PixelRange := ⟨v, v⟩

/-- Embedding of `Bar._isVisibleOnPlot` (barPlot.ts lines 240-246): the bar's
bounding box must intersect the plot viewport. -/
def isVisibleOnPlot (plotWidth plotHeight : ℚ) (barBBox : BBox) : Bool :=
  intersectsBBox ⟨0, plotWidth⟩ ⟨0, plotHeight⟩ barBBox defaultBBoxTolerance

/-- Embedding of `Bar._entitiesIntersecting` (barPlot.ts lines 287-295). -/
def entitiesIntersecting {D : Type} (es : List (Entity D)) (xRange yRange : PixelRange) :
    List (Entity D) :=
  es.filter fun e => intersectsBBox xRange yRange e.bbox defaultBBoxTolerance

/-- Embedding of `Bar.entitiesAt` (barPlot.ts lines 254-256). -/
def entitiesAt {D : Type} (es : List (Entity D)) (p : Point) : List (Entity D) :=
  entitiesIntersecting es (pointRange p.x) (pointRange p.y)

/-- Embedding of the range overload of `Bar.entitiesIn`
(barPlot.ts lines 273-285). -/
def entitiesIn {D : Type} (es : List (Entity D)) (xRange yRange : PixelRange) :
    List (Entity D) :=
  entitiesIntersecting es xRange yRange

/-- Embedding of the bounds overload of `Bar.entitiesIn`
(barPlot.ts lines 276-279). -/
def entitiesInBounds {D : Type} (es : List (Entity D)) (bounds : Bounds) : List (Entity D) :=
  entitiesIntersecting es ⟨bounds.topLeft.x, bounds.bottomRight.x⟩
    ⟨bounds.topLeft.y, bounds.bottomRight.y⟩

/-- The (primaryDist, secondaryDist) pair that one loop iteration of
`Bar.entityNearest` computes for an entity (barPlot.ts lines 207-227). -/
def entityDists {D : Type} (isVertical : Bool) (q : Point) (e : Entity D) : ℚ × ℚ :=
  let queryPtPrimary := if isVertical then q.x else q.y
  let queryPtSecondary := if isVertical then q.y else q.x
  let tolerance : ℚ := 1/2
  if intersectsBBox (pointRange q.x) (pointRange q.y) e.bbox tolerance then (0, 0)
  else
    let plotPtPrimary := if isVertical then e.position.x else e.position.y
    let primaryDist := |queryPtPrimary - plotPtPrimary|
    let barMinSecondary := if isVertical then e.bbox.y else e.bbox.x
    let barMaxSecondary := barMinSecondary + (if isVertical then e.bbox.height else e.bbox.width)
    let secondaryDist :=
      if barMinSecondary - tolerance ≤ queryPtSecondary ∧
          queryPtSecondary ≤ barMaxSecondary + tolerance then (0 : ℚ)
      else |queryPtSecondary - (if isVertical then e.position.y else e.position.x)|
    (primaryDist, secondaryDist)

/-- One iteration of the `entities().forEach` loop of `Bar.entityNearest`
(barPlot.ts lines 203-235); the accumulator holds
(minPrimaryDist, minSecondaryDist, closest), `none` standing for the initial
(Infinity, Infinity, undefined). -/
def entityNearestStep {D : Type} (isVertical : Bool) (plotWidth plotHeight : ℚ) (q : Point)
    (best : Option (ℚ × ℚ × Entity D)) (e : Entity D) : Option (ℚ × ℚ × Entity D) :=
  if isVisibleOnPlot plotWidth plotHeight e.bbox then
    let dists := entityDists isVertical q e
    match best with
    | none => some (dists.1, dists.2, e)
    | some (minPrimaryDist, minSecondaryDist, closest) =>
      if dists.1 < minPrimaryDist ∨ (dists.1 = minPrimaryDist ∧ dists.2 < minSecondaryDist) then
        some (dists.1, dists.2, e)
      else
        some (minPrimaryDist, minSecondaryDist, closest)
  else best

/-- Embedding of `Bar.entityNearest` (barPlot.ts lines 190-238). -/
def entityNearest {D : Type} (isVertical : Bool) (plotWidth plotHeight : ℚ)
    (es : List (Entity D)) (q : Point) : Option (Entity D) :=
  (es.foldl (entityNearestStep isVertical plotWidth plotHeight q) none).map fun r => r.2.2

/-- Strict lexicographic order on (primaryDist, secondaryDist) pairs: this is
the "closer" relation `entityNearest`'s update condition implements. -/
def lexLt (a b : ℚ × ℚ) : Prop := a.1 < b.1 ∨ (a.1 = b.1 ∧ a.2 < b.2)

instance (a b : ℚ × ℚ) : Decidable (lexLt a b) := by
  unfold lexLt
  infer_instance

/-- Selection of the first entity (in enumeration order) whose distance pair
is lexicographically minimal; the specification's description of what
`nearestEntity` returns among the visible entities. -/
def pickFirstMin {D : Type} (pr : Entity D → ℚ × ℚ) : List (Entity D) → Option (Entity D)
  | [] => none
  | e :: es =>
    match pickFirstMin pr es with
    | none => some e
    | some b => if lexLt (pr b) (pr e) then some b else some e

/-- The state stored by `entityNearestStep` for a chosen entity: its distance
pair together with the entity. -/
def distState {D : Type} (pr : Entity D → ℚ × ℚ) (e : Entity D) : ℚ × ℚ × Entity D :=
  ((pr e).1, (pr e).2, e)

/-- Left-biased combination of an already chosen entity with a later
candidate: the later one wins only when strictly closer. -/
def mergeOpt {D : Type} (pr : Entity D → ℚ × ℚ) :
    Option (Entity D) → Option (Entity D) → Option (Entity D)
  | none, r => r
  | some c, none => some c
  | some c, some b => if lexLt (pr b) (pr c) then some b else some c

/-- The distance pair exactly as the claim words it: the primary distance is
zero whenever the query point falls within the mark's primary-axis span
(with the half-pixel tolerance), and likewise for the secondary distance and
span; outside a span the distance is measured to the entity position. -/
def claimDists {D : Type} (isVertical : Bool) (q : Point) (e : Entity D) : ℚ × ℚ :=
  let queryPtPrimary := if isVertical then q.x else q.y
  let queryPtSecondary := if isVertical then q.y else q.x
  let tolerance : ℚ := 1/2
  let barMinPrimary := if isVertical then e.bbox.x else e.bbox.y
  let barMaxPrimary := barMinPrimary + (if isVertical then e.bbox.width else e.bbox.height)
  let primaryDist :=
    if barMinPrimary - tolerance ≤ queryPtPrimary ∧
        queryPtPrimary ≤ barMaxPrimary + tolerance then (0 : ℚ)
    else |queryPtPrimary - (if isVertical then e.position.x else e.position.y)|
  let barMinSecondary := if isVertical then e.bbox.y else e.bbox.x
  let barMaxSecondary := barMinSecondary + (if isVertical then e.bbox.height else e.bbox.width)
  let secondaryDist :=
    if barMinSecondary - tolerance ≤ queryPtSecondary ∧
        queryPtSecondary ≤ barMaxSecondary + tolerance then (0 : ℚ)
    else |queryPtSecondary - (if isVertical then e.position.y else e.position.x)|
  (primaryDist, secondaryDist)

/-- Concrete vertical bar used to separate the code's nearest-entity distances
from the claim's: centred at x = 4, spanning x in [0, 8], y in [0, 10]. -/
def ceBarA : Entity ℕ := ⟨0, ⟨4, 0⟩, ⟨0, 0, 8, 10⟩⟩

/-- Concrete vertical bar centred at x = 9, spanning x in [43/5, 47/5],
y in [0, 10]. -/
def ceBarB : Entity ℕ := ⟨1, ⟨9, 0⟩, ⟨43/5, 0, 4/5, 10⟩⟩

/-- The shrink ratio `Bar._BAR_WIDTH_RATIO = 0.95` (barPlot.ts line 16). -/
def barWidthShrink : ℚ := 19/20

/-- The single-bar default ratio `Bar._SINGLE_BAR_DIMENSION_RATIO = 0.4`
(barPlot.ts line 17). -/
def singleBarDimensionFactor : ℚ := 2/5

/-- Modelled from the spec: `Utils.Methods.min` with an accessor — the
minimum of `f` over the list, or the supplied default when the list is empty
("the candidate width is the minimum such gap (default to
availableExtentPixels * 0.4 if fewer than two distinct values exist)"). -/
def methodsMinAcc {α : Type} (l : List α) (f : α → ℚ) (dflt : ℚ) : ℚ :=
  match l with
  | [] => dflt
  | x :: xs => (xs.map f).foldl min (f x)

/-- Modelled from the spec: `Utils.Methods.min` on a plain list with a
default. -/
def methodsMin (l : List ℚ) (dflt : ℚ) : ℚ :=
  match l with
  | [] => dflt
  | x :: xs => xs.foldl min x

/-- Modelled from the spec: `Utils.Methods.max` on a plain list with a
default. -/
def methodsMax (l : List ℚ) (dflt : ℚ) : ℚ :=
  match l with
  | [] => dflt
  | x :: xs => xs.foldl max x

/-- Embedding of `d3.pairs`: the list of adjacent pairs. -/
def d3pairs {α : Type} : List α → List (α × α)
  | [] => []
  | [_] => []
  | x :: y :: rest => (x, y) :: d3pairs (y :: rest)

/-- Embedding of the quantitative-scale branch of `Bar._getBarPixelWidth`
(barPlot.ts lines 465-495): `barScale` is the thickness-axis scale,
`values` the accessor data across all datasets, `barWidthDimension` the
available extent in pixels. -/
def getBarPixelWidth (barScale : ℚ → ℚ) (values : List ℚ) (barWidthDimension : ℚ) : ℚ :=
  let numberBarAccessorData := List.insertionSort (· ≤ ·) values.dedup
  let barAccessorDataPairs := d3pairs numberBarAccessorData
  let barPixelWidth := methodsMinAcc barAccessorDataPairs
    (fun pair => |barScale pair.2 - barScale pair.1|)
    (barWidthDimension * singleBarDimensionFactor)
  let scaledData := numberBarAccessorData.map barScale
  let minScaledDatum := methodsMin scaledData 0
  let barPixelWidth :=
    if minScaledDatum > 0 then min barPixelWidth (minScaledDatum * 2) else barPixelWidth
  let maxScaledDatum := methodsMax scaledData 0
  let barPixelWidth :=
    if maxScaledDatum < barWidthDimension then
      min barPixelWidth ((barWidthDimension - maxScaledDatum) * 2)
    else barPixelWidth
  barPixelWidth * barWidthShrink

/-- The continuous-scale width solve as the specification words it: the
minimum adjacent pixel gap over the deduplicated ascending-sorted distinct
values (defaulting to 0.4 of the extent), clamped at twice the smallest
scaled value when that is positive, symmetrically clamped at twice the
margin above the largest scaled value, then shrunk by the fixed ratio. -/
def specSolveWidth (barScale : ℚ → ℚ) (values : List ℚ) (availableExtent : ℚ) : ℚ :=
  let distinct := List.insertionSort (· ≤ ·) values.dedup
  let gaps := (distinct.zip distinct.tail).map fun pair => |barScale pair.2 - barScale pair.1|
  let candidate := gaps.min?.getD (availableExtent * (2/5))
  let scaled := distinct.map barScale
  let clamped1 :=
    match scaled.min? with
    | some m => if 0 < m then min candidate (2 * m) else candidate
    | none => candidate
  let clamped2 :=
    match scaled.max? with
    | some m => if m < availableExtent then min clamped1 (2 * (availableExtent - m)) else clamped1
    | none => clamped1
  clamped2 * (19/20)

/-- A JavaScript numeric value: a finite number, `NaN`, or a signed
infinity. -/
inductive JSValue where
  | num (q : ℚ)
  | nan
  | posInf
  | negInf
deriving DecidableEq

/-- Embedding of `Utils.Methods.isValidNumber` as `_getDataToDraw` uses it: a
value passes exactly when it is a finite number. -/
def isValidNumber : JSValue → Bool
  | JSValue.num _ => true
  | _ => false

/-- Embedding of `Bar._getDataToDraw` (barPlot.ts lines 534-545) for one
dataset: keep the data whose four projected attributes are all valid
numbers. -/
def getDataToDraw {D : Type} (fx fy fw fh : D → JSValue) (data : List D) : List D :=
  data.filter fun d =>
    isValidNumber (fx d) && isValidNumber (fy d) &&
    isValidNumber (fw d) && isValidNumber (fh d)

/-- The warning text of `StackedArea._updateStackOffsets`
(barPlot.ts stacked-area section, line 588). -/
def stackWarnMsg (datasetKey : String) : String :=
  "dataset " ++ datasetKey ++ " does not contain all domain keys.  Plot may have unintended behavior."

/-- Modelled from the spec: `_getDomainKeys` — the set of domain keys
observed across the datasets of the stack group. -/
def getDomainKeys {D : Type} (keyAccessor : D → String) (datasets : List (List D)) :
    List String :=
  ((datasets.map fun data => data.map keyAccessor).flatten).dedup

/-- The warning pass of `StackedArea._updateStackOffsets` (barPlot.ts
stacked-area section, lines 581-592): one warning per dataset, in dataset
order, for every dataset whose data misses some domain key. -/
def updateStackOffsetsWarnings {D : Type} (keyAccessor : D → String)
    (datasets : List (String × List D)) : List String :=
  let domainKeys := getDomainKeys keyAccessor (datasets.map fun p => p.2)
  (datasets.filter fun p =>
      domainKeys.any fun domainKey => !((p.2.map keyAccessor).contains domainKey)).map
    fun p => stackWarnMsg p.1

/-- Modelled from the spec: the value a dataset contributes at a domain key —
the dataset's value there, or zero when the key is missing ("initialized to
zero for any key not present in a given dataset"). -/
def datasetKeyValue {D : Type} (keyAccessor : D → String) (valueAccessor : D → ℚ)
    (data : List D) (k : String) : ℚ :=
  match data.find? fun d => keyAccessor d == k with
  | some d => valueAccessor d
  | none => 0

/-- Lookup of a key's entry in an association list of offsets, zero when
absent. -/
def lookupOffset (offsets : List (String × ℚ)) (k : String) : ℚ :=
  match offsets.find? fun p => p.1 == k with
  | some p => p.2
  | none => 0

/-- Modelled from the spec: the accumulation loop of
`AbstractStacked._updateStackOffsets` — each dataset's offset at a key is
the running per-key total of the datasets below it. -/
def resolveStackOffsetsAux {D : Type} (keyAccessor : D → String) (valueAccessor : D → ℚ)
    (domainKeys : List String) (totals : List (String × ℚ)) :
    List (List D) → List (List (String × ℚ))
  | [] => []
  | data :: rest =>
    let offsets := domainKeys.map fun k => (k, lookupOffset totals k)
    let newTotals := domainKeys.map fun k =>
      (k, lookupOffset totals k + datasetKeyValue keyAccessor valueAccessor data k)
    offsets :: resolveStackOffsetsAux keyAccessor valueAccessor domainKeys newTotals rest

/-- Modelled from the spec: `resolveOffsets` of the StackOffsetResolver —
per dataset (in stack order), the offset association list over the group's
domain keys. -/
def resolveStackOffsets {D : Type} (keyAccessor : D → String) (valueAccessor : D → ℚ)
    (datasets : List (List D)) : List (List (String × ℚ)) :=
  resolveStackOffsetsAux keyAccessor valueAccessor (getDomainKeys keyAccessor datasets) [] datasets

/-- Embedding of `StackedArea._updateStackOffsets`: raise the warnings, then
resolve the offsets (the superclass call, modelled from the spec). -/
def updateStackOffsets {D : Type} (keyAccessor : D → String) (valueAccessor : D → ℚ)
    (datasets : List (String × List D)) : List String × List (List (String × ℚ)) :=
  (updateStackOffsetsWarnings keyAccessor datasets,
   resolveStackOffsets keyAccessor valueAccessor (datasets.map fun p => p.2))

/-- Embedding of the orientation check of the `Bar` constructor
(barPlot.ts lines 35-47): an invalid orientation throws, otherwise the
stored `_isVertical` flag is returned. -/
def barConstructorOrientation (orientation : String) : Except String Bool :=
  if orientation ≠ "vertical" ∧ orientation ≠ "horizontal" then
    Except.error (orientation ++ " is not a valid orientation for Plots.Bar")
  else
    Except.ok (orientation == "vertical")

/-- Embedding of the `DragBoxLayer.detectionRadius` setter
(dragBoxLayer.ts lines 232-242): a negative radius throws before the field
is assigned. -/
def detectionRadiusSet (r : ℚ) : Except String ℚ :=
  if r < 0 then Except.error "detection radius cannot be negative."
  else Except.ok r

/-- ASCII lower-casing of a character, as `String.prototype.toLowerCase`
behaves on the alignment strings involved. -/
def charLower (c : Char) : Char :=
  if 'A' ≤ c ∧ c ≤ 'Z' then Char.ofNat (c.toNat + 32) else c

/-- ASCII lower-casing of a string. -/
def strToLower (s : String) : String := ⟨s.data.map charLower⟩

/-- Embedding of the `BarRenderer.barAlignment` setter
(barRenderer.ts lines 119-130): lower-case the argument, throw unless it is
left/center/right, otherwise store the lower-cased value. -/
def barAlignmentSet (alignment : String) : Except String String :=
  let alignmentLC := strToLower alignment
  if alignmentLC ≠ "left" ∧ alignmentLC ≠ "center" ∧ alignmentLC ≠ "right" then
    Except.error "unsupported bar alignment"
  else
    Except.ok alignmentLC

/-- The state a throwing setter leaves behind: the new value on success, the
previous value when the call threw. -/
def applyConfig {α : Type} (current : α) (result : Except String α) : α :=
  match result with
  | Except.ok v => v
  | Except.error _ => current

/-- Concrete entity whose bounding box is the square [0,10] x [0,10]; used to
exercise the half-pixel tolerance of the inside tests. -/
def tolEntity : Entity ℕ := ⟨0, ⟨5, 5⟩, ⟨0, 0, 10, 10⟩⟩

/-- Concrete stack group from the specification's scenario: dataset d1 is
missing the key "c" that d0 and d2 carry. -/
def stackDemo : List (String × List (String × ℚ)) :=
  [("d0", [("a", 1), ("b", 2), ("c", 5)]),
   ("d1", [("a", 3), ("b", 4)]),
   ("d2", [("a", 0), ("b", 0), ("c", 0)])]

/-- Embedding of `Bar._pixelPoint` (barPlot.ts lines 523-532), applied to the
projected rectangle of a datum. -/
def pixelPoint (isVertical : Bool) (rect : BBox) : Point :=
  { x := if isVertical then rect.x + rect.width / 2 else rect.x + rect.width
    y := if isVertical then rect.y else rect.y + rect.height / 2 }

/-- Embedding of the position fixup of `Bar.entities`
(barPlot.ts lines 505-519): starting from `_pixelPoint`, move the primary
coordinate across the bar when the floored offset edge compares with the
floored baseline, then re-centre the secondary coordinate. -/
def entityPosition (isVertical : Bool) (scaledBaseline : ℚ) (rect : BBox) : Point :=
  let p := pixelPoint isVertical rect
  let p2 : Point :=
    if isVertical ∧ Rat.floor rect.y ≥ Rat.floor scaledBaseline then
      { p with y := p.y + rect.height }
    else if ¬isVertical ∧ Rat.floor rect.x < Rat.floor scaledBaseline then
      { p with x := p.x - rect.width }
    else p
  if isVertical then { p2 with x := rect.x + rect.width / 2 }
  else { p2 with y := rect.y + rect.height / 2 }

/-- The primary-axis offset attribute of the projection: `y` for vertical
bars, `x` for horizontal ones. -/
def projectedPrimaryOffset {D : Type} (isVertical : Bool) (scaledBaseline : ℚ)
    (positionF widthF originalPositionFn : D → ℚ) (d : D) : ℚ :=
  if isVertical then
    (generateAttrToProjector isVertical scaledBaseline positionF widthF originalPositionFn).y d
  else
    (generateAttrToProjector isVertical scaledBaseline positionF widthF originalPositionFn).x d

/-- The length-dimension attribute of the projection: `height` for vertical
bars, `width` for horizontal ones. -/
def projectedLength {D : Type} (isVertical : Bool) (scaledBaseline : ℚ)
    (positionF widthF originalPositionFn : D → ℚ) (d : D) : ℚ :=
  if isVertical then
    (generateAttrToProjector isVertical scaledBaseline positionF widthF
      originalPositionFn).height d
  else
    (generateAttrToProjector isVertical scaledBaseline positionF widthF
      originalPositionFn).width d

/-- The projected rectangle of one datum: the four attributes of
`_generateAttrToProjector` assembled into the bar's rect. -/
def projectedRect {D : Type} (isVertical : Bool) (scaledBaseline : ℚ)
    (positionF widthF originalPositionFn : D → ℚ) (d : D) : BBox :=
  ⟨(generateAttrToProjector isVertical scaledBaseline positionF widthF originalPositionFn).x d,
   (generateAttrToProjector isVertical scaledBaseline positionF widthF originalPositionFn).y d,
   (generateAttrToProjector isVertical scaledBaseline positionF widthF
     originalPositionFn).width d,
   (generateAttrToProjector isVertical scaledBaseline positionF widthF
     originalPositionFn).height d⟩

/-! ### Theorems -/

/-- Core span computation for a baseline-clamped offset and absolute length. -/
lemma baselineSpan_core (base raw : ℚ) :
    min (if raw > base then base else raw) ((if raw > base then base else raw) + |base - raw|) =
      min base raw ∧
    max (if raw > base then base else raw) ((if raw > base then base else raw) + |base - raw|) =
      max base raw ∧
    (0 : ℚ) ≤ |base - raw| := by
  refine ⟨?_, ?_, abs_nonneg _⟩ <;>
  · rcases le_or_lt raw base with h | h
    · rw [if_neg (not_lt.2 h), abs_of_nonneg (by linarith)]
      have hr : raw + (base - raw) = base := by ring
      rw [hr]
      first
        | rw [min_comm]
        | rw [max_comm]
    · rw [if_pos h, abs_of_neg (by linarith)]
      have hr : base + -(base - raw) = raw := by ring
      rw [hr]

/-- C1: for every projected datum, the projected length equals
`|scaledBaseline - rawPrimary|`, the primary offset is the endpoint nearer
the baseline, so the mark spans exactly from the scaled baseline to the raw
scaled value regardless of sign, and the length is nonnegative; the
`BarRenderer._paint` projectors compute the same quantities. -/
theorem barPlot_baseline_invariant {D : Type} (isVertical : Bool) (scaledBaseline : ℚ)
    (positionF widthF originalPositionFn : D → ℚ) (d : D) :
    projectedLength isVertical scaledBaseline positionF widthF originalPositionFn d =
      |scaledBaseline - originalPositionFn d| ∧
    projectedPrimaryOffset isVertical scaledBaseline positionF widthF originalPositionFn d =
      (if originalPositionFn d > scaledBaseline then scaledBaseline
       else originalPositionFn d) ∧
    min (projectedPrimaryOffset isVertical scaledBaseline positionF widthF
        originalPositionFn d)
      (projectedPrimaryOffset isVertical scaledBaseline positionF widthF
        originalPositionFn d +
       projectedLength isVertical scaledBaseline positionF widthF originalPositionFn d) =
      min scaledBaseline (originalPositionFn d) ∧
    max (projectedPrimaryOffset isVertical scaledBaseline positionF widthF
        originalPositionFn d)
      (projectedPrimaryOffset isVertical scaledBaseline positionF widthF
        originalPositionFn d +
       projectedLength isVertical scaledBaseline positionF widthF originalPositionFn d) =
      max scaledBaseline (originalPositionFn d) ∧
    0 ≤ projectedLength isVertical scaledBaseline positionF widthF originalPositionFn d ∧
    barRendererHeightProjector scaledBaseline originalPositionFn d =
      |scaledBaseline - originalPositionFn d| ∧
    barRendererYProjector scaledBaseline originalPositionFn d =
      (if originalPositionFn d > scaledBaseline then scaledBaseline
       else originalPositionFn d) := by
  obtain ⟨h1, h2, h3⟩ := baselineSpan_core scaledBaseline (originalPositionFn d)
  cases isVertical <;>
    exact ⟨rfl, rfl, h1, h2, h3, rfl, rfl⟩

/-- C6: the draw-step scheduler produces the reset phase followed by the main
phase exactly when data changed and animation is enabled, and only the main
phase otherwise; the reset projection pins the primary position to the
scaled baseline with zero length, and the main phase carries the plain
attribute projection. -/
theorem barPlot_generateDrawSteps_phases {D : Type} (dataChanged animate isVertical : Bool)
    (scaledBaseline : ℚ) (positionF widthF originalPositionFn : D → ℚ) (d : D) :
    (generateDrawSteps dataChanged animate isVertical scaledBaseline positionF widthF
        originalPositionFn).map (fun s => s.animator) =
      (if dataChanged && animate then [AnimatorKey.reset, AnimatorKey.main]
       else [AnimatorKey.main]) ∧
    (generateDrawSteps dataChanged animate isVertical scaledBaseline positionF widthF
        originalPositionFn).length = (if dataChanged && animate then 2 else 1) ∧
    ((generateDrawSteps dataChanged animate isVertical scaledBaseline positionF widthF
        originalPositionFn).getLast?).map (fun s => s.attrToProjector) =
      some (generateAttrToProjector isVertical scaledBaseline positionF widthF
        originalPositionFn) ∧
    ((dataChanged && animate) = true →
      ((generateDrawSteps dataChanged animate isVertical scaledBaseline positionF widthF
          originalPositionFn).head?).map (fun s => (s.animator,
          (if isVertical then s.attrToProjector.y d else s.attrToProjector.x d),
          (if isVertical then s.attrToProjector.height d else s.attrToProjector.width d))) =
        some (AnimatorKey.reset, scaledBaseline, 0)) := by
  cases dataChanged <;> cases animate <;> cases isVertical <;>
    simp [generateDrawSteps]

/-- C7: for one dataset, the drawable set contains exactly the data whose
four projected attributes are all finite numbers, and it is a sublist of the
dataset (the remaining data are untouched, in order). -/
theorem barPlot_getDataToDraw_filters {D : Type} (fx fy fw fh : D → JSValue)
    (data : List D) (d : D) :
    (d ∈ getDataToDraw fx fy fw fh data ↔
      d ∈ data ∧ isValidNumber (fx d) = true ∧ isValidNumber (fy d) = true ∧
        isValidNumber (fw d) = true ∧ isValidNumber (fh d) = true) ∧
    (getDataToDraw fx fy fw fh data).Sublist data := by
  constructor
  · simp [getDataToDraw, List.mem_filter, and_assoc]
  · exact List.filter_sublist _

/-- C9: each configuration error is raised synchronously — an invalid
orientation, a negative detection radius, and an unsupported bar alignment
all produce an error — and a throwing setter leaves the previously
configured state unchanged. -/
theorem configSetters_throwAndPreserve (orientation : String) (radiusCurrent r : ℚ)
    (alignCurrent alignment : String) :
    ((orientation ≠ "vertical" ∧ orientation ≠ "horizontal") →
      barConstructorOrientation orientation =
        Except.error (orientation ++ " is not a valid orientation for Plots.Bar")) ∧
    (r < 0 →
      detectionRadiusSet r = Except.error "detection radius cannot be negative." ∧
      applyConfig radiusCurrent (detectionRadiusSet r) = radiusCurrent) ∧
    ((strToLower alignment ≠ "left" ∧ strToLower alignment ≠ "center" ∧
        strToLower alignment ≠ "right") →
      barAlignmentSet alignment = Except.error "unsupported bar alignment" ∧
      applyConfig alignCurrent (barAlignmentSet alignment) = alignCurrent) := by
  refine ⟨fun h => ?_, fun h => ?_, fun h => ?_⟩
  · simp only [barConstructorOrientation, if_pos h]
  · simp [detectionRadiusSet, applyConfig, if_pos h]
  · simp [barAlignmentSet, applyConfig, if_pos h]

/-- Witness for C6: with data changed and animation enabled, at concrete
inputs the reset phase really pins the primary position to the baseline with
zero length. -/
theorem barPlot_generateDrawSteps_phases_witness :
    ((true && true) = true) ∧
    ((generateDrawSteps true true true (5 : ℚ) (fun _ : ℕ => 7) (fun _ => 2)
        (fun _ => 9)).head?).map (fun s => (s.animator, s.attrToProjector.y 0,
          s.attrToProjector.height 0)) = some (AnimatorKey.reset, 5, 0) :=
  ⟨rfl, (barPlot_generateDrawSteps_phases true true true (5 : ℚ) (fun _ : ℕ => 7)
    (fun _ => 2) (fun _ => 9) 0).2.2.2 rfl⟩

/-- Witness for C9: the orientation "diagonal", the radius -1 and the
alignment "middle" are all rejected, with the stored state preserved. -/
theorem configSetters_throwAndPreserve_witness :
    barConstructorOrientation "diagonal" =
      Except.error ("diagonal" ++ " is not a valid orientation for Plots.Bar") ∧
    detectionRadiusSet (-1) = Except.error "detection radius cannot be negative." ∧
    applyConfig (3 : ℚ) (detectionRadiusSet (-1)) = 3 ∧
    barAlignmentSet "middle" = Except.error "unsupported bar alignment" ∧
    applyConfig "left" (barAlignmentSet "middle") = "left" := by
  have h := configSetters_throwAndPreserve "diagonal" 3 (-1) "left" "middle"
  refine ⟨h.1 (by decide), ?_, ?_, ?_, ?_⟩
  · exact (h.2.1 (by norm_num)).1
  · exact (h.2.1 (by norm_num)).2
  · exact (h.2.2 (by decide)).1
  · exact (h.2.2 (by decide)).2

/-- Minimum folds over nonnegative values stay nonnegative. -/
lemma foldl_min_nonneg (l : List ℚ) (a : ℚ) (ha : 0 ≤ a) (hl : ∀ x ∈ l, 0 ≤ x) :
    0 ≤ l.foldl min a := by
  induction l generalizing a with
  | nil => exact ha
  | cons x xs ih =>
    exact ih (min a x) (le_min ha (hl x (List.mem_cons_self x xs)))
      fun y hy => hl y (List.mem_cons_of_mem _ hy)

/-- `Utils.Methods.min` of nonnegative values with a nonnegative default is
nonnegative. -/
lemma methodsMinAcc_nonneg {α : Type} (l : List α) (f : α → ℚ) (dflt : ℚ)
    (hd : 0 ≤ dflt) (hf : ∀ x ∈ l, 0 ≤ f x) : 0 ≤ methodsMinAcc l f dflt := by
  cases l with
  | nil => exact hd
  | cons x xs =>
    refine foldl_min_nonneg _ _ (hf x (List.mem_cons_self x xs)) ?_
    intro y hy
    obtain ⟨z, hz, rfl⟩ := List.mem_map.1 hy
    exact hf z (List.mem_cons_of_mem _ hz)

/-- C4 (amended): with a nonnegative available extent the solved bar width is
never negative. -/
theorem barPlot_getBarPixelWidth_nonneg (barScale : ℚ → ℚ) (values : List ℚ) (dim : ℚ)
    (hdim : 0 ≤ dim) : 0 ≤ getBarPixelWidth barScale values dim := by
  unfold getBarPixelWidth
  have h0 : 0 ≤ methodsMinAcc (d3pairs (List.insertionSort (· ≤ ·) values.dedup))
      (fun pair => |barScale pair.2 - barScale pair.1|)
      (dim * singleBarDimensionFactor) := by
    refine methodsMinAcc_nonneg _ _ _ ?_ fun x _ => abs_nonneg _
    have : (0 : ℚ) ≤ singleBarDimensionFactor := by norm_num [singleBarDimensionFactor]
    positivity
  have hshrink : (0 : ℚ) ≤ barWidthShrink := by norm_num [barWidthShrink]
  refine mul_nonneg ?_ hshrink
  split_ifs with h1 h2 h2
  · exact le_min (le_min h0 (by linarith)) (by linarith)
  · exact le_min h0 (by linarith)
  · exact le_min h0 (by linarith)
  · exact h0

/-- Witness for C4 (amended): a concrete nonnegative extent gives a
nonnegative solved width. -/
theorem barPlot_getBarPixelWidth_nonneg_witness :
    (0 : ℚ) ≤ 100 ∧ 0 ≤ getBarPixelWidth (fun x => x) [1, 2, 3] 100 :=
  ⟨by norm_num, barPlot_getBarPixelWidth_nonneg (fun x => x) [1, 2, 3] 100 (by norm_num)⟩

/-- Counterexample to C4 as stated: two distinct domain values that scale to
the same pixel give a zero candidate gap which propagates to a solved width
of exactly zero — it is not floored to a positive value. -/
theorem barPlot_getBarPixelWidth_zeroGap :
    getBarPixelWidth (fun _ => 5) [1, 2] 100 = 0 ∧
    ¬ 0 < getBarPixelWidth (fun _ => 5) [1, 2] 100 := by
  constructor <;> with_unfolding_all decide

/-- `d3.pairs` produces exactly the zip of a list with its tail. -/
lemma d3pairs_eq_zip {α : Type} : ∀ l : List α, d3pairs l = l.zip l.tail
  | [] => rfl
  | [_] => rfl
  | x :: y :: rest => by
    rw [d3pairs, d3pairs_eq_zip (y :: rest)]
    rfl

/-- `Utils.Methods.min` with an accessor agrees with the library minimum of
the mapped list. -/
lemma methodsMinAcc_eq_min {α : Type} (l : List α) (f : α → ℚ) (dflt : ℚ) :
    methodsMinAcc l f dflt = ((l.map f).min?).getD dflt := by
  cases l <;> rfl

/-- `Utils.Methods.min` on a plain list agrees with the library minimum. -/
lemma methodsMin_eq_min (l : List ℚ) (dflt : ℚ) :
    methodsMin l dflt = (l.min?).getD dflt := by
  cases l <;> rfl

/-- `Utils.Methods.max` on a plain list agrees with the library maximum. -/
lemma methodsMax_eq_max (l : List ℚ) (dflt : ℚ) :
    methodsMax l dflt = (l.max?).getD dflt := by
  cases l <;> rfl

/-- C3: the quantitative-scale bar width solve computes exactly what the
specification describes — the minimum adjacent scaled gap over the
deduplicated ascending-sorted distinct values with the 0.4-extent default,
clamped by twice the positive minimum scaled value and by twice the margin
above the maximum scaled value, then multiplied by the fixed shrink ratio,
which is strictly between zero and one. -/
theorem barPlot_getBarPixelWidth_matchesSpec (barScale : ℚ → ℚ) (values : List ℚ)
    (dim : ℚ) :
    getBarPixelWidth barScale values dim = specSolveWidth barScale values dim ∧
    barWidthShrink < 1 ∧ 0 < barWidthShrink := by
  refine ⟨?_, by norm_num [barWidthShrink], by norm_num [barWidthShrink]⟩
  simp only [getBarPixelWidth, specSolveWidth, barWidthShrink, singleBarDimensionFactor,
    d3pairs_eq_zip, methodsMinAcc_eq_min, methodsMin_eq_min, methodsMax_eq_max]
  generalize List.insertionSort (· ≤ ·) values.dedup = nd
  match nd with
  | [] =>
    simp only [List.tail_nil, List.zip_nil_left, List.map_nil, List.min?_nil, List.max?_nil,
      Option.getD_none]
    split_ifs with h1 h2 h3
    · exact absurd h2 (lt_irrefl (0 : ℚ))
    · rw [min_eq_left (by linarith)]
    · exact absurd h3 (lt_irrefl (0 : ℚ))
    · rfl
  | [x] =>
    simp [mul_comm]
  | x :: y :: rest =>
    simp [List.min?_cons, List.max?_cons, mul_comm]

/-- C5: every inside test of the spatial queries applies the fixed half-pixel
tolerance — membership in `entitiesAt`/`entitiesIn` is exactly containment
in the bounding box expanded by half a pixel, and a query point inside the
half-pixel-expanded bounding box makes both `entityNearest` distances
conclusively zero. -/
theorem barPlot_halfPixelTolerance {D : Type} (isVertical : Bool) (es : List (Entity D))
    (p : Point) (xRange yRange : PixelRange) (q : Point) (e : Entity D) :
    (e ∈ entitiesAt es p ↔ e ∈ es ∧
      p.x - 1/2 ≤ e.bbox.x + e.bbox.width ∧ e.bbox.x ≤ p.x + 1/2 ∧
      p.y - 1/2 ≤ e.bbox.y + e.bbox.height ∧ e.bbox.y ≤ p.y + 1/2) ∧
    (e ∈ entitiesIn es xRange yRange ↔ e ∈ es ∧
      xRange.min - 1/2 ≤ e.bbox.x + e.bbox.width ∧ e.bbox.x ≤ xRange.max + 1/2 ∧
      yRange.min - 1/2 ≤ e.bbox.y + e.bbox.height ∧ e.bbox.y ≤ yRange.max + 1/2) ∧
    ((e.bbox.x - 1/2 ≤ q.x ∧ q.x ≤ e.bbox.x + e.bbox.width + 1/2 ∧
      e.bbox.y - 1/2 ≤ q.y ∧ q.y ≤ e.bbox.y + e.bbox.height + 1/2) →
      entityDists isVertical q e = (0, 0)) := by
  refine ⟨?_, ?_, ?_⟩
  · simp [entitiesAt, entitiesIntersecting, List.mem_filter, intersectsBBox, pointRange,
      defaultBBoxTolerance, and_assoc]
  · simp [entitiesIn, entitiesIntersecting, List.mem_filter, intersectsBBox,
      defaultBBoxTolerance, and_assoc]
  · rintro ⟨h1, h2, h3, h4⟩
    have hin : intersectsBBox (pointRange q.x) (pointRange q.y) e.bbox (1/2) = true := by
      unfold intersectsBBox pointRange
      rw [Bool.and_eq_true, Bool.and_eq_true, Bool.and_eq_true]
      refine ⟨⟨⟨?_, ?_⟩, ?_⟩, ?_⟩ <;> · rw [decide_eq_true_iff]; linarith
    simp only [entityDists]
    rw [hin]
    rfl

/-- Witness for C5: a query point strictly outside the square [0,10] x [0,10]
but within the half-pixel band still registers as inside all the query
operations. -/
theorem barPlot_halfPixelTolerance_witness :
    tolEntity ∈ entitiesAt [tolEntity] ⟨21/2, -1/2⟩ ∧
    tolEntity ∈ entitiesIn [tolEntity] ⟨21/2, 21/2⟩ ⟨-1/2, -1/2⟩ ∧
    entityDists true ⟨21/2, -1/2⟩ tolEntity = (0, 0) := by
  have h := barPlot_halfPixelTolerance true [tolEntity] ⟨21/2, -1/2⟩
    ⟨21/2, 21/2⟩ ⟨-1/2, -1/2⟩ ⟨21/2, -1/2⟩ tolEntity
  refine ⟨h.1.2 ?_, h.2.1.2 ?_, h.2.2 ?_⟩
  · exact ⟨List.mem_singleton_self _, by norm_num [tolEntity], by norm_num [tolEntity],
      by norm_num [tolEntity], by norm_num [tolEntity]⟩
  · exact ⟨List.mem_singleton_self _, by norm_num [tolEntity], by norm_num [tolEntity],
      by norm_num [tolEntity], by norm_num [tolEntity]⟩
  · exact ⟨by norm_num [tolEntity], by norm_num [tolEntity], by norm_num [tolEntity],
      by norm_num [tolEntity]⟩

/-- Looking a present key up in an association list built over the domain
keys reads off the generating function. -/
lemma lookupOffset_map_self (domainKeys : List String) (f : String → ℚ) (k : String)
    (hk : k ∈ domainKeys) : lookupOffset (domainKeys.map fun a => (a, f a)) k = f k := by
  induction domainKeys with
  | nil => cases hk
  | cons a l ih =>
    by_cases hak : (a == k) = true
    · have : a = k := by simpa using hak
      subst this
      simp [lookupOffset, List.find?]
    · have hk2 : k ∈ l := by
        have : ¬ a = k := by simpa using hak
        rcases List.mem_cons.1 hk with rfl | hmem
        · exact absurd rfl this
        · exact hmem
      simpa [lookupOffset, List.find?, hak] using ih hk2

/-- The stack-offset accumulation in closed form: the offset recorded for the
i-th dataset at a present key is the total of the values the datasets below
it contribute at that key. -/
lemma resolveStackOffsetsAux_getD {D : Type} (keyAccessor : D → String)
    (valueAccessor : D → ℚ) (domainKeys : List String) (k : String) (hk : k ∈ domainKeys) :
    ∀ (dss : List (List D)) (totals : List (String × ℚ)) (i : ℕ), i < dss.length →
      lookupOffset ((resolveStackOffsetsAux keyAccessor valueAccessor domainKeys totals
          dss).getD i []) k =
        lookupOffset totals k +
          ((dss.take i).map fun data => datasetKeyValue keyAccessor valueAccessor data k).sum := by
  intro dss
  induction dss with
  | nil =>
    intro totals i hi
    exact absurd hi (by simp)
  | cons data rest ih =>
    intro totals i hi
    cases i with
    | zero =>
      simp [resolveStackOffsetsAux, lookupOffset_map_self _ _ _ hk]
    | succ n =>
      have hn : n < rest.length := by simpa using hi
      have := ih (domainKeys.map fun a =>
        (a, lookupOffset totals a + datasetKeyValue keyAccessor valueAccessor data a)) n hn
      simp only [resolveStackOffsetsAux, List.getD, List.get?_cons_succ] at *
      rw [this, lookupOffset_map_self _ _ _ hk]
      simp [List.sum_cons]
      ring

/-- C8: when a dataset of the stack group misses a domain key present in the
group, a warning naming that dataset is raised; the offsets are still
resolved for every dataset, each offset being the running total of the
datasets below with missing keys contributing zero; and a dataset with no
entry at a key contributes exactly zero. -/
theorem stackedArea_updateStackOffsets_spec {D : Type} (keyAccessor : D → String)
    (valueAccessor : D → ℚ) (datasets : List (String × List D)) (datasetKey : String)
    (data : List D) (k : String) (i : ℕ) :
    ((datasetKey, data) ∈ datasets →
      k ∈ getDomainKeys keyAccessor (datasets.map fun p => p.2) →
      (data.map keyAccessor).contains k = false →
      stackWarnMsg datasetKey ∈ (updateStackOffsets keyAccessor valueAccessor datasets).1) ∧
    (k ∈ getDomainKeys keyAccessor (datasets.map fun p => p.2) →
      i < datasets.length →
      lookupOffset (((updateStackOffsets keyAccessor valueAccessor datasets).2).getD i []) k =
        (((datasets.map fun p => p.2).take i).map fun dd =>
          datasetKeyValue keyAccessor valueAccessor dd k).sum) ∧
    (∀ dd : List D, (dd.find? fun d0 => keyAccessor d0 == k) = none →
      datasetKeyValue keyAccessor valueAccessor dd k = 0) := by
  refine ⟨fun hmem hdom hmiss => ?_, fun hdom hi => ?_, fun dd hnone => ?_⟩
  · simp only [updateStackOffsets, updateStackOffsetsWarnings, List.mem_map]
    refine ⟨(datasetKey, data), List.mem_filter.2 ⟨hmem, ?_⟩, rfl⟩
    rw [List.any_eq_true]
    exact ⟨k, hdom, by rw [hmiss]; rfl⟩
  · have h := resolveStackOffsetsAux_getD keyAccessor valueAccessor
      (getDomainKeys keyAccessor (datasets.map fun p => p.2)) k hdom
      (datasets.map fun p => p.2) [] i (by simpa using hi)
    simpa [updateStackOffsets, resolveStackOffsets, lookupOffset] using h
  · simp [datasetKeyValue, hnone]

/-- Witness for C8, on the specification's concrete scenario: dataset d1
misses key "c", the warning for d1 is raised, and the offset of the dataset
above at "c" is the bottom dataset's value 5 with d1 contributing zero. -/
theorem stackedArea_updateStackOffsets_spec_witness :
    stackWarnMsg "d1" ∈ (updateStackOffsets Prod.fst Prod.snd stackDemo).1 ∧
    lookupOffset (((updateStackOffsets Prod.fst Prod.snd stackDemo).2).getD 2 []) "c" = 5 ∧
    datasetKeyValue Prod.fst Prod.snd [("a", (3 : ℚ)), ("b", 4)] "c" = 0 := by
  have h := stackedArea_updateStackOffsets_spec Prod.fst Prod.snd stackDemo "d1"
    [("a", (3 : ℚ)), ("b", 4)] "c" 2
  refine ⟨h.1 (by decide) (by decide) (by decide), ?_, h.2.2 _ (by decide)⟩
  rw [h.2.1 (by decide) (by decide)]
  with_unfolding_all decide

/-- Vertical entity position fixup: when the bar lies on or past the baseline
side, or the floored value end lies strictly above the floored baseline, the
reported y is the raw scaled primary value. -/
lemma entityPosition_vertical_primary (base c w raw : ℚ)
    (h : base ≤ raw ∨ Rat.floor raw < Rat.floor base) :
    (entityPosition true base
      ⟨c - w / 2, if raw > base then base else raw, w, |base - raw|⟩).y = raw := by
  have hy : (entityPosition true base
      ⟨c - w / 2, if raw > base then base else raw, w, |base - raw|⟩).y =
      (if Rat.floor (if raw > base then base else raw) ≥ Rat.floor base
       then (if raw > base then base else raw) + |base - raw|
       else (if raw > base then base else raw)) := by
    by_cases hf : Rat.floor (if raw > base then base else raw) ≥ Rat.floor base <;>
      simp [entityPosition, pixelPoint, hf]
  rw [hy]
  rcases lt_or_le base raw with hbr | hbr
  · rw [if_pos hbr, if_pos (le_refl _), abs_of_neg (by linarith)]
    ring
  · rw [if_neg (not_lt.2 hbr)]
    rcases h with h | h
    · have hh : raw = base := le_antisymm hbr h
      subst hh
      rw [if_pos (le_refl _), abs_of_nonneg (by linarith)]
      ring
    · rw [if_neg (not_le.2 h)]

/-- Horizontal entity position fixup: under the same flooring condition the
reported x is the raw scaled primary value. -/
lemma entityPosition_horizontal_primary (base c w raw : ℚ)
    (h : base ≤ raw ∨ Rat.floor raw < Rat.floor base) :
    (entityPosition false base
      ⟨if raw > base then base else raw, c - w / 2, |base - raw|, w⟩).x = raw := by
  have hx : (entityPosition false base
      ⟨if raw > base then base else raw, c - w / 2, |base - raw|, w⟩).x =
      (if Rat.floor (if raw > base then base else raw) < Rat.floor base
       then (if raw > base then base else raw) + |base - raw| - |base - raw|
       else (if raw > base then base else raw) + |base - raw|) := by
    by_cases hf : Rat.floor (if raw > base then base else raw) < Rat.floor base <;>
      simp [entityPosition, pixelPoint, hf]
  rw [hx]
  rcases lt_or_le base raw with hbr | hbr
  · rw [if_pos hbr, if_neg (lt_irrefl (Rat.floor base)), abs_of_neg (by linarith)]
    ring
  · rw [if_neg (not_lt.2 hbr)]
    rcases h with h | h
    · have hh : raw = base := le_antisymm hbr h
      subst hh
      rw [if_neg (lt_irrefl _), abs_of_nonneg (by linarith)]
      ring
    · rw [if_pos h]
      ring

/-- C10 (amended): the position reported by `entities()` for a projected bar
always sits at the secondary-axis midpoint of the bar; it sits at the raw
value end of the bar along the primary axis whenever the bar lies on the
far side of the baseline or the floored value end differs from the floored
baseline (in the remaining same-pixel case the baseline edge is reported
instead). -/
theorem barPlot_entityPosition_valueEnd {D : Type} (isVertical : Bool) (scaledBaseline : ℚ)
    (positionF widthF originalPositionFn : D → ℚ) (d : D) :
    ((if isVertical then
        (entityPosition isVertical scaledBaseline
          (projectedRect isVertical scaledBaseline positionF widthF originalPositionFn d)).x
      else
        (entityPosition isVertical scaledBaseline
          (projectedRect isVertical scaledBaseline positionF widthF originalPositionFn d)).y)
      = positionF d) ∧
    ((scaledBaseline ≤ originalPositionFn d ∨
        Rat.floor (originalPositionFn d) < Rat.floor scaledBaseline) →
      (if isVertical then
        (entityPosition isVertical scaledBaseline
          (projectedRect isVertical scaledBaseline positionF widthF originalPositionFn d)).y
      else
        (entityPosition isVertical scaledBaseline
          (projectedRect isVertical scaledBaseline positionF widthF originalPositionFn d)).x)
        = originalPositionFn d) := by
  cases isVertical
  · exact ⟨by show positionF d - widthF d / 2 + widthF d / 2 = positionF d; ring,
      fun h => entityPosition_horizontal_primary scaledBaseline (positionF d) (widthF d)
        (originalPositionFn d) h⟩
  · exact ⟨by show positionF d - widthF d / 2 + widthF d / 2 = positionF d; ring,
      fun h => entityPosition_vertical_primary scaledBaseline (positionF d) (widthF d)
        (originalPositionFn d) h⟩

/-- Witness for C10 (amended): a vertical bar of value 3 over baseline 0
centred at x = 7 reports position (7, 3) — the value end, at the bar's
horizontal midpoint. -/
theorem barPlot_entityPosition_valueEnd_witness :
    ((0 : ℚ) ≤ 3 ∨ Rat.floor (3 : ℚ) < Rat.floor (0 : ℚ)) ∧
    (entityPosition true 0
        (projectedRect true 0 (fun _ : ℕ => 7) (fun _ => 2) (fun _ => 3) 0)).x = 7 ∧
    (entityPosition true 0
        (projectedRect true 0 (fun _ : ℕ => 7) (fun _ => 2) (fun _ => 3) 0)).y = 3 :=
  ⟨Or.inl (by norm_num),
   (barPlot_entityPosition_valueEnd true 0 (fun _ : ℕ => 7) (fun _ => 2) (fun _ => 3) 0).1,
   (barPlot_entityPosition_valueEnd true 0 (fun _ : ℕ => 7) (fun _ => 2) (fun _ => 3) 0).2
     (Or.inl (by norm_num))⟩

/-- Counterexample to C10 as stated: a vertical bar with value end 21/4 and
baseline 11/2 lies in the same integer pixel row as the baseline, and the
reported primary position is the baseline edge 11/2, not the value end
21/4. -/
theorem barPlot_entityPosition_counterexample :
    (entityPosition true (11/2)
        (projectedRect true (11/2 : ℚ) (fun _ : ℕ => 10) (fun _ => 4) (fun _ => 21/4) 0)).y
      = 11/2 ∧ ((11/2 : ℚ) ≠ 21/4) := by
  constructor
  · with_unfolding_all decide
  · with_unfolding_all decide

/-- The lexicographic closer relation is irreflexive. -/
lemma lexLt_irrefl (a : ℚ × ℚ) : ¬ lexLt a a := by
  rintro (h | ⟨h1, h2⟩)
  · exact lt_irrefl _ h
  · exact lt_irrefl _ h2

/-- The lexicographic closer relation is transitive. -/
lemma lexLt_trans {a b c : ℚ × ℚ} (h1 : lexLt a b) (h2 : lexLt b c) : lexLt a c := by
  rcases h1 with h1 | ⟨e1, l1⟩ <;> rcases h2 with h2 | ⟨e2, l2⟩
  · exact Or.inl (lt_trans h1 h2)
  · exact Or.inl (e2 ▸ h1)
  · exact Or.inl (e1 ▸ h2)
  · exact Or.inr ⟨e1.trans e2, lt_trans l1 l2⟩

/-- Failing to be closer is transitive as well. -/
lemma lexLt_not_not {a b c : ℚ × ℚ} (h1 : ¬ lexLt a b) (h2 : ¬ lexLt b c) : ¬ lexLt a c := by
  unfold lexLt at *
  push_neg at h1 h2
  obtain ⟨hb1, hb2⟩ := h1
  obtain ⟨hc1, hc2⟩ := h2
  rintro (h3 | ⟨e3, l3⟩)
  · linarith
  · have hab : a.1 = b.1 := le_antisymm (by linarith) hb1
    have hbc : b.1 = c.1 := le_antisymm (by linarith) hc1
    have h4 := hb2 hab
    have h5 := hc2 hbc
    linarith

/-- Combining an accumulated choice with a later candidate associates with
the first-minimum selection over a prefix. -/
lemma mergeOpt_pick {D : Type} (pr : Entity D → ℚ × ℚ) (c : Option (Entity D)) (e : Entity D)
    (r : Option (Entity D)) :
    mergeOpt pr (mergeOpt pr c (some e)) r =
      mergeOpt pr c
        (match r with
         | none => some e
         | some b => if lexLt (pr b) (pr e) then some b else some e) := by
  cases c with
  | none =>
    cases r with
    | none => rfl
    | some b => rfl
  | some c0 =>
    cases r with
    | none =>
      by_cases hA : lexLt (pr e) (pr c0) <;> simp [mergeOpt, hA]
    | some b =>
      by_cases hA : lexLt (pr e) (pr c0) <;> by_cases hB : lexLt (pr b) (pr e)
      · have hC : lexLt (pr b) (pr c0) := lexLt_trans hB hA
        simp [mergeOpt, hA, hB, hC]
      · simp [mergeOpt, hA, hB]
      · simp [mergeOpt, hA, hB]
      · have hC : ¬ lexLt (pr b) (pr c0) := lexLt_not_not hB hA
        simp [mergeOpt, hA, hB, hC]

/-- The `entityNearest` accumulator loop computes the left-biased merge of
the running choice with the first lexicographic minimum of the remaining
visible entities. -/
lemma entityNearest_foldl {D : Type} (isVertical : Bool) (plotWidth plotHeight : ℚ)
    (q : Point) :
    ∀ (es : List (Entity D)) (c : Option (Entity D)),
      es.foldl (entityNearestStep isVertical plotWidth plotHeight q)
        (c.map (distState (entityDists isVertical q))) =
      (mergeOpt (entityDists isVertical q) c
        (pickFirstMin (entityDists isVertical q)
          (es.filter fun e => isVisibleOnPlot plotWidth plotHeight e.bbox))).map
        (distState (entityDists isVertical q)) := by
  intro es
  induction es with
  | nil =>
    intro c
    cases c <;> rfl
  | cons e es ih =>
    intro c
    by_cases hvis : isVisibleOnPlot plotWidth plotHeight e.bbox = true
    · have hstep : entityNearestStep isVertical plotWidth plotHeight q
          (c.map (distState (entityDists isVertical q))) e =
          (mergeOpt (entityDists isVertical q) c (some e)).map
            (distState (entityDists isVertical q)) := by
        cases c with
        | none => simp [entityNearestStep, hvis, mergeOpt, distState]
        | some c0 =>
          by_cases hlt : lexLt (entityDists isVertical q e) (entityDists isVertical q c0)
          · have hlt2 : (entityDists isVertical q e).1 < (entityDists isVertical q c0).1 ∨
                ((entityDists isVertical q e).1 = (entityDists isVertical q c0).1 ∧
                 (entityDists isVertical q e).2 < (entityDists isVertical q c0).2) := hlt
            simp [entityNearestStep, hvis, mergeOpt, distState, hlt, hlt2]
          · have hlt2 : ¬ ((entityDists isVertical q e).1 < (entityDists isVertical q c0).1 ∨
                ((entityDists isVertical q e).1 = (entityDists isVertical q c0).1 ∧
                 (entityDists isVertical q e).2 < (entityDists isVertical q c0).2)) := hlt
            simp [entityNearestStep, hvis, mergeOpt, distState, hlt, hlt2]
      rw [List.foldl_cons, hstep, ih (mergeOpt (entityDists isVertical q) c (some e)),
        mergeOpt_pick]
      have hfil : (e :: es).filter (fun e2 => isVisibleOnPlot plotWidth plotHeight e2.bbox) =
          e :: es.filter fun e2 => isVisibleOnPlot plotWidth plotHeight e2.bbox := by
        simp [List.filter_cons, hvis]
      rw [hfil]
      rfl
    · have hstep : entityNearestStep isVertical plotWidth plotHeight q
          (c.map (distState (entityDists isVertical q))) e =
          c.map (distState (entityDists isVertical q)) := by
        simp [entityNearestStep, hvis]
      have hfil : (e :: es).filter (fun e2 => isVisibleOnPlot plotWidth plotHeight e2.bbox) =
          es.filter fun e2 => isVisibleOnPlot plotWidth plotHeight e2.bbox := by
        simp [List.filter_cons, hvis]
      rw [List.foldl_cons, hstep, ih c, hfil]

/-- The first-minimum selection returns nothing exactly on the empty list. -/
lemma pickFirstMin_eq_none {D : Type} (pr : Entity D → ℚ × ℚ) :
    ∀ l : List (Entity D), pickFirstMin pr l = none ↔ l = []
  | [] => by simp [pickFirstMin]
  | e :: l => by
    simp only [pickFirstMin]
    cases hpl : pickFirstMin pr l
    · simp
    · simp only []
      split <;> simp

/-- The first-minimum selection returns a member whose distance pair no other
member beats. -/
lemma pickFirstMin_min {D : Type} (pr : Entity D → ℚ × ℚ) :
    ∀ (l : List (Entity D)) (e : Entity D), pickFirstMin pr l = some e →
      e ∈ l ∧ ∀ x ∈ l, ¬ lexLt (pr x) (pr e) := by
  intro l
  induction l with
  | nil =>
    intro e h
    simp [pickFirstMin] at h
  | cons a l ih =>
    intro e h
    simp only [pickFirstMin] at h
    cases hpl : pickFirstMin pr l with
    | none =>
      have hl : l = [] := (pickFirstMin_eq_none pr l).1 hpl
      subst hl
      simp only [pickFirstMin] at h
      have he : e = a := by
        cases h
        rfl
      subst he
      refine ⟨List.mem_singleton.2 rfl, ?_⟩
      intro x hx
      have hxe : x = e := List.mem_singleton.1 hx
      subst hxe
      exact lexLt_irrefl _
    | some b =>
      rw [hpl] at h
      have h2 : (if lexLt (pr b) (pr a) then some b else some a) = some e := h
      obtain ⟨hbmem, hbmin⟩ := ih b hpl
      by_cases hlt : lexLt (pr b) (pr a)
      · rw [if_pos hlt] at h2
        cases h2
        refine ⟨List.mem_cons_of_mem _ hbmem, ?_⟩
        intro x hx
        rcases List.mem_cons.1 hx with rfl | hx2
        · intro hx3
          exact lexLt_irrefl _ (lexLt_trans hx3 hlt)
        · exact hbmin x hx2
      · rw [if_neg hlt] at h2
        cases h2
        refine ⟨List.mem_cons_self _ _, ?_⟩
        intro x hx
        rcases List.mem_cons.1 hx with rfl | hx2
        · exact lexLt_irrefl _
        · exact lexLt_not_not (hbmin x hx2) hlt

/-- C2 (amended): `entityNearest` considers only the entities visible on the
plot and selects the first one, in enumeration order, whose distance pair —
both components zero inside a bar's tolerance-expanded bounding box,
otherwise the primary distance to the entity position and a secondary
distance that is zero within the bar's secondary span — is lexicographically
minimal; it returns none exactly when no entity is visible, and any returned
entity is visible and lexicographically unbeaten. -/
theorem barPlot_entityNearest_firstLexMin {D : Type} (isVertical : Bool)
    (plotWidth plotHeight : ℚ) (es : List (Entity D)) (q : Point) :
    entityNearest isVertical plotWidth plotHeight es q =
      pickFirstMin (entityDists isVertical q)
        (es.filter fun e => isVisibleOnPlot plotWidth plotHeight e.bbox) ∧
    (entityNearest isVertical plotWidth plotHeight es q = none ↔
      es.filter (fun e => isVisibleOnPlot plotWidth plotHeight e.bbox) = []) ∧
    ∀ e, entityNearest isVertical plotWidth plotHeight es q = some e →
      e ∈ es.filter (fun e2 => isVisibleOnPlot plotWidth plotHeight e2.bbox) ∧
      ∀ x ∈ es.filter (fun e2 => isVisibleOnPlot plotWidth plotHeight e2.bbox),
        ¬ lexLt (entityDists isVertical q x) (entityDists isVertical q e) := by
  have hfold := entityNearest_foldl isVertical plotWidth plotHeight q es none
  have hmain : entityNearest isVertical plotWidth plotHeight es q =
      pickFirstMin (entityDists isVertical q)
        (es.filter fun e => isVisibleOnPlot plotWidth plotHeight e.bbox) := by
    unfold entityNearest
    rw [show (none : Option (ℚ × ℚ × Entity D)) =
      Option.map (distState (entityDists isVertical q)) none from rfl] at *
    rw [hfold]
    cases pickFirstMin (entityDists isVertical q)
      (es.filter fun e => isVisibleOnPlot plotWidth plotHeight e.bbox) <;> rfl
  refine ⟨hmain, ?_, ?_⟩
  · rw [hmain]
    constructor
    · intro h
      exact (pickFirstMin_eq_none _ _).1 h
    · intro h
      rw [h]
      rfl
  · intro e he
    rw [hmain] at he
    exact pickFirstMin_min _ _ e he

/-- Counterexample to C2 as stated: at query point (7, 50) among two visible
vertical bars, `entityNearest` returns bar B (its centre is nearer in x),
but the claim's distance rule — primary distance zero inside the mark's
primary-axis span — makes bar A the lexicographic minimum: the code applies
no span-based zeroing to the primary distance. -/
theorem barPlot_entityNearest_claimCounterexample :
    entityNearest true 100 100 [ceBarA, ceBarB] ⟨7, 50⟩ = some ceBarB ∧
    pickFirstMin (claimDists true ⟨7, 50⟩)
      ([ceBarA, ceBarB].filter fun e => isVisibleOnPlot 100 100 e.bbox) = some ceBarA ∧
    ceBarB ≠ ceBarA := by
  refine ⟨?_, ?_, ?_⟩ <;> with_unfolding_all decide

/-- Witness for C2 (amended): on the counterexample configuration the
returned entity is visible and its code-distance pair is unbeaten. -/
theorem barPlot_entityNearest_firstLexMin_witness :
    ceBarB ∈ ([ceBarA, ceBarB].filter fun e2 => isVisibleOnPlot (100 : ℚ) 100 e2.bbox) ∧
    ¬ lexLt (entityDists true ⟨7, 50⟩ ceBarA) (entityDists true ⟨7, 50⟩ ceBarB) :=
  ⟨((barPlot_entityNearest_firstLexMin true 100 100 [ceBarA, ceBarB] ⟨7, 50⟩).2.2 ceBarB
      (by with_unfolding_all decide)).1,
   ((barPlot_entityNearest_firstLexMin true 100 100 [ceBarA, ceBarB] ⟨7, 50⟩).2.2 ceBarB
      (by with_unfolding_all decide)).2 ceBarA (by with_unfolding_all decide)⟩
